import Mathlib

/-!
Shallow embedding of `src/sales_metrics.py`: a batch sales-metrics calculator
that joins orders against product prices and discount tables, applies additive
stacking percentage discounts, and accumulates totals with exact decimal
arithmetic.

Modelling choices:
- Python `Decimal` values are modelled as `ℚ`.  `Decimal(...).quantize(Decimal("0.01"))`
  (default rounding ROUND_HALF_EVEN) is modelled by `quantize2`, which rounds to
  the nearest multiple of 1/100, ties to even.
- A raw numeric input (the argument of `to_decimal`, i.e. a JSON string or
  number) is a `Raw`: `Raw.num q` for a value that parses as the decimal `q`,
  `Raw.bad t` for text that fails to parse (`InvalidOperation` / `TypeError`,
  e.g. "invalid" or null).
- Exceptions are modelled with `Except CalcError`.  The single Python class
  `SalesCalculationError` is split by raise site: `CalcError.invalidValue`
  (raised in `to_decimal`, carrying the label and the raw text) and
  `CalcError.invalidOrder` (the `except KeyError` handler in the order loop,
  lines 127-129, which logs the order id — `order.get('orderId', 'unknown')` —
  and raises with the missing key; the error value carries both pieces of
  information produced at that site).
- Python dicts for orders/items are modelled as structures whose possibly
  absent keys are `Option` fields; a `none` field models a missing key
  (`KeyError` on subscript access).
- The `logger.warning` call on line 120 (zero resolved discount percentage) is
  modelled by collecting the offending discount strings in a list returned
  alongside the metrics.
-/

deriving instance DecidableEq for Except

namespace SalesMetricsModel

/-- A raw numeric input value: either parses as a decimal `q`, or is
unparseable text (non-numeric string, null, malformed). -/
inductive Raw where
  | num (q : ℚ)
  | bad (text : String)
deriving DecidableEq

/-- The errors raised by the calculator, split by raise site of
`SalesCalculationError`. -/
inductive CalcError where
  | invalidValue (label : String) (raw : String)
  | invalidOrder (orderId : String) (key : String)
deriving DecidableEq

/-- Round a rational to the nearest integer, ties to even
(Python decimal's default ROUND_HALF_EVEN). -/
def roundHalfEven (x : ℚ) : ℤ :=
  let f : ℤ := Rat.floor x
  let r : ℚ := x - (f : ℚ)
  if r < 1/2 then f
  else if 1/2 < r then f + 1
  else if f % 2 = 0 then f else f + 1

/-- Model of `Decimal(v).quantize(Decimal("0.01"))`: round to 2 fractional digits. -/
def quantize2 (q : ℚ) : ℚ := ((roundHalfEven (q * 100) : ℤ) : ℚ) / 100

/-- The function `to_decimal(value, label)` from `sales_metrics.py` lines 64-70. -/
def to_decimal (value : Raw) (label : String) : Except CalcError ℚ :=
  match value with
  | .num q => .ok (quantize2 q)
  | .bad t => .error (.invalidValue label t)

/-- A lookup table (Python dict) as a list of key-value pairs in insertion
order; `tableGet` takes the last binding, matching dict overwrite semantics. -/
abbrev Table : Type := List (String × ℚ)

/-- Dict lookup: the last occurrence of the key wins. -/
def tableGet (t : Table) (k : String) : Option ℚ :=
  (List.find? (fun e => e.1 = k) (List.reverse t)).map (fun e => e.2)

/-- A product record: fields `sku` and `price` (lines 82-85 subscript both, so
they are required; the model keeps them present). -/
structure ProductRow where
  sku : String
  price : Raw
deriving DecidableEq

/-- A discount record: fields `key` and `value` (lines 86-89). -/
structure DiscountRow where
  key : String
  value : Raw
deriving DecidableEq

/-- The dict comprehension on lines 82-85: convert each price in input order,
later duplicate skus overwriting earlier ones (via `tableGet`). -/
def buildPriceTable : List ProductRow → Except CalcError Table
  | [] => .ok []
  | r :: rs =>
    match to_decimal r.price "price" with
    | .error e => .error e
    | .ok p =>
      match buildPriceTable rs with
      | .error e => .error e
      | .ok t => .ok ((r.sku, p) :: t)

/-- The dict comprehension on lines 86-89 for discount codes. -/
def buildDiscountTable : List DiscountRow → Except CalcError Table
  | [] => .ok []
  | r :: rs =>
    match to_decimal r.value "discount" with
    | .error e => .error e
    | .ok v =>
      match buildDiscountTable rs with
      | .error e => .error e
      | .ok t => .ok ((r.key, v) :: t)

/-- An order item dict: `sku` and `quantity` keys may be missing (`none`). -/
structure Item where
  sku : Option String
  quantity : Option Raw
deriving DecidableEq

/-- An order dict: optional `orderId`, possibly missing `items` key, optional
`discount` comma-separated codes string. -/
structure Order where
  orderId : Option String
  items : Option (List Item)
  discount : Option String
deriving DecidableEq

/-- The expression `order.get('orderId', 'unknown')` (line 128). -/
def orderIdOf (o : Order) : String := o.orderId.getD "unknown"

/-- One term `products[item["sku"]] * to_decimal(item["quantity"], "quantity")`
of the sum on lines 102-105, with Python's evaluation order: `item["sku"]`
(KeyError "sku"), `products[...]` (KeyError sku), `item["quantity"]`
(KeyError "quantity"), then `to_decimal`. -/
def itemVal (pt : Table) (oid : String) (it : Item) : Except CalcError ℚ :=
  match it.sku with
  | none => .error (.invalidOrder oid "sku")
  | some s =>
    match tableGet pt s with
    | none => .error (.invalidOrder oid s)
    | some p =>
      match it.quantity with
      | none => .error (.invalidOrder oid "quantity")
      | some qr =>
        match to_decimal qr "quantity" with
        | .error e => .error e
        | .ok q => .ok (p * q)

/-- The sum `order_total = sum(...)` (lines 102-105); `order["items"]` missing raises
KeyError "items". -/
def orderTotal (pt : Table) (o : Order) : Except CalcError ℚ :=
  match o.items with
  | none => .error (.invalidOrder (orderIdOf o) "items")
  | some its =>
    its.foldlM (fun acc it => (itemVal pt (orderIdOf o) it).map (fun v => acc + v)) 0

/-- Lines 111-114: split the discount string on commas, strip whitespace, and
sum `discounts[code]` over the codes present in the table (unknown codes
skipped). -/
def stackedPct (dt : Table) (s : String) : ℚ :=
  ((s.splitOn ",").map (fun c => c.trim)).foldl
    (fun acc c =>
      match tableGet dt c with
      | some v => acc + v
      | none => acc) 0

/-- The result of processing one order in the loop body (lines 100-125):
its total, the discount amount applied, whether `orders_with_discount` was
incremented, and whether the invalid-discount-code warning was logged. -/
structure OrderRes where
  total : ℚ
  discountAmount : ℚ
  discounted : Bool
  warned : Bool
deriving DecidableEq

/-- Loop body for one order, lines 100-125.  The walrus
`if discount_codes := order.get("discount")` enters the discount branch only
when `discount` is present and a non-empty (truthy) string. -/
def processOrder (pt dt : Table) (o : Order) : Except CalcError OrderRes :=
  match orderTotal pt o with
  | .error e => .error e
  | .ok t =>
    match o.discount with
    | some s =>
      if s = "" then .ok ⟨t, 0, false, false⟩
      else
        if 0 < stackedPct dt s then .ok ⟨t, t * stackedPct dt s, true, false⟩
        else .ok ⟨t, 0, false, true⟩
    | none => .ok ⟨t, 0, false, false⟩

/-- The running accumulators initialised on lines 92-95. -/
structure Totals where
  before : ℚ
  afterT : ℚ
  disc : ℚ
  owd : Nat
deriving DecidableEq

/-- The `SalesMetrics` dataclass (lines 34-42). -/
structure SalesMetrics where
  total_before_discount : ℚ
  total_after_discount : ℚ
  total_discount_amount : ℚ
  orders_with_discount : Nat
  total_orders : Nat
  average_discount_percentage : ℚ
deriving DecidableEq

/-- One iteration of the `for order in orders_data` loop, folding an order's
result into the running totals (lines 122-125) and collecting the warning
string when one is logged (line 120). -/
def stepOrder (pt dt : Table) (acc : Totals × List String) (o : Order) :
    Except CalcError (Totals × List String) :=
  match processOrder pt dt o with
  | .error e => .error e
  | .ok r =>
    .ok (⟨acc.1.before + r.total,
          acc.1.afterT + (r.total - r.discountAmount),
          acc.1.disc + r.discountAmount,
          acc.1.owd + (if r.discounted then 1 else 0)⟩,
         if r.warned then acc.2 ++ [o.discount.getD ""] else acc.2)

/-- Lines 131-145: derive the average discount and assemble the metrics. -/
def finalize (orders : List Order) (t : Totals) : SalesMetrics :=
  ⟨t.before, t.afterT, t.disc, t.owd, orders.length,
   if 0 < t.before ∧ 0 < t.owd then t.disc / t.before * 100 else 0⟩

/-- The entry point `calculate_sales_metrics` (lines 72-152): build the two tables, fold the
orders, finalize.  Returns the metrics paired with the list of logged
invalid-discount-code warning strings. -/
def calculate_sales_metrics (orders : List Order) (ps : List ProductRow)
    (ds : List DiscountRow) : Except CalcError (SalesMetrics × List String) :=
  match buildPriceTable ps with
  | .error e => .error e
  | .ok pt =>
    match buildDiscountTable ds with
    | .error e => .error e
    | .ok dt =>
      match orders.foldlM (stepOrder pt dt) (⟨0, 0, 0, 0⟩, []) with
      | .error e => .error e
      | .ok r => .ok (finalize orders r.1, r.2)

/-! Sample data from the spec scenario (and `tests/test_sales_metrics.py`). -/

def sampleOrder1 : Order :=
  ⟨some "1", some [⟨some "PROD1", some (.num 2)⟩, ⟨some "PROD2", some (.num 1)⟩],
    some "SAVE10,WINTERMADNESS"⟩

def sampleOrders : List Order :=
  [sampleOrder1, ⟨some "2", some [⟨some "PROD1", some (.num 1)⟩], none⟩]

def sampleProducts : List ProductRow := [⟨"PROD1", .num 10⟩, ⟨"PROD2", .num 20⟩]

def sampleDiscounts : List DiscountRow :=
  [⟨"SAVE10", .num (1/10)⟩, ⟨"WINTERMADNESS", .num (1/10)⟩]

/-- The price table built from `sampleProducts`. -/
def samplePriceTable : Table := [("PROD1", 10), ("PROD2", 20)]

/-- The discount table built from `sampleDiscounts`. -/
def sampleDiscountTable : Table := [("SAVE10", 1/10), ("WINTERMADNESS", 1/10)]

/-- Claim C1: on the concrete scenario (two orders, the first with items
2×PROD1 and 1×PROD2 and discount string "SAVE10,WINTERMADNESS", the second
with 1×PROD1; PROD1 = 10.00, PROD2 = 20.00, SAVE10 = WINTERMADNESS = 0.10),
`calculate_sales_metrics` returns total_before_discount = 50.00,
total_after_discount = 42.00, total_discount_amount = 8.00,
orders_with_discount = 1 (and total_orders = 2), and
average_discount_percentage = 16.00, with no warnings logged. -/
theorem calc_sample_scenario :
    calculate_sales_metrics sampleOrders sampleProducts sampleDiscounts =
      .ok (⟨50, 42, 8, 1, 2, 16⟩, []) := by with_unfolding_all decide

/-- Claim C7: `to_decimal` maps every parseable decimal input to its value
rounded deterministically to exactly 2 fractional digits (some integer number
of hundredths), and every unparseable input to `invalidValue` carrying the
label and the raw text; in particular the raw values of "0" and "10.00" map
to 0.00 and 10.00, and "invalid" fails. -/
theorem to_decimal_spec :
    (∀ (q : ℚ) (l : String), to_decimal (.num q) l = .ok (quantize2 q)) ∧
    (∀ q : ℚ, ∃ n : ℤ, quantize2 q = (n : ℚ) / 100) ∧
    (∀ (t l : String), to_decimal (.bad t) l = .error (.invalidValue l t)) ∧
    to_decimal (.num 0) "quantity" = .ok 0 ∧
    to_decimal (.num 10) "price" = .ok 10 ∧
    to_decimal (.bad "invalid") "price" = .error (.invalidValue "price" "invalid") := by
  refine ⟨fun q l => rfl, fun q => ⟨roundHalfEven (q * 100), rfl⟩, fun t l => rfl,
    ?_, ?_, rfl⟩
  · with_unfolding_all decide
  · with_unfolding_all decide

/-- Claim C9: a discount code occurring twice in one discount string is
summed once per occurrence: with SAVE10 = 0.10 in the table,
"SAVE10,SAVE10" resolves to a stacked percentage of 0.20, not 0.10. -/
theorem duplicate_codes_sum_per_occurrence :
    stackedPct [("SAVE10", 1/10)] "SAVE10,SAVE10" = 1/5 ∧ ((1 : ℚ)/5 ≠ 1/10) := by
  constructor
  · with_unfolding_all decide
  · with_unfolding_all decide

/-- Inputs exercising negative values: a product priced -10.00, an item with
quantity -1, and a discount code worth 1.50 (a stacked percentage above 1). -/
def negOrders : List Order :=
  [⟨some "1", some [⟨some "P", some (.num 1)⟩], some "BIG"⟩,
   ⟨some "2", some [⟨some "NP", some (.num 1)⟩, ⟨some "P", some (.num (-1))⟩], none⟩]

def negProducts : List ProductRow := [⟨"P", .num 10⟩, ⟨"NP", .num (-10)⟩]

def negDiscounts : List DiscountRow := [⟨"BIG", .num (3/2)⟩]

/-- Claim C10: `to_decimal` accepts negative numeric values, and negative
prices, negative quantities, and a stacked percentage greater than 1 all flow
through the aggregation without error; on this input the run succeeds and
returns a negative total_after_discount (-25.00). -/
theorem negative_values_flow_through :
    to_decimal (.num (-10)) "price" = .ok (-10) ∧
    to_decimal (.num (-1)) "quantity" = .ok (-1) ∧
    calculate_sales_metrics negOrders negProducts negDiscounts =
      .ok (⟨-10, -25, 15, 1, 2, 0⟩, []) ∧
    ((-25 : ℚ) < 0) := by
  refine ⟨?_, ?_, ?_, ?_⟩ <;> with_unfolding_all decide

/-! Run-level invariants: the fold over orders maintains
`afterT = before - disc`, and `finalize` derives the average from the
accumulated totals. -/

theorem stepOrder_ok_fields (pt dt : Table) (acc : Totals × List String)
    (o : Order) (r : OrderRes) (h : processOrder pt dt o = .ok r) :
    stepOrder pt dt acc o =
      .ok (⟨acc.1.before + r.total,
            acc.1.afterT + (r.total - r.discountAmount),
            acc.1.disc + r.discountAmount,
            acc.1.owd + (if r.discounted then 1 else 0)⟩,
           if r.warned then acc.2 ++ [o.discount.getD ""] else acc.2) := by
  unfold stepOrder
  rw [h]

theorem foldl_stepOrder_inv (pt dt : Table) (orders : List Order) :
    ∀ (acc r : Totals × List String),
      List.foldlM (stepOrder pt dt) acc orders = Except.ok r →
      acc.1.afterT = acc.1.before - acc.1.disc →
      r.1.afterT = r.1.before - r.1.disc := by
  induction orders with
  | nil =>
    intro acc r h hacc
    simp only [List.foldlM_nil] at h
    cases h
    exact hacc
  | cons o os ih =>
    intro acc r h hacc
    rw [List.foldlM_cons] at h
    cases hp : processOrder pt dt o with
    | error e =>
      rw [show stepOrder pt dt acc o = .error e by unfold stepOrder; rw [hp]] at h
      cases h
    | ok pr =>
      rw [stepOrder_ok_fields pt dt acc o pr hp] at h
      refine ih _ r h ?_
      simp only
      rw [hacc]
      ring

/-- Claim C2: whenever `calculate_sales_metrics` returns normally, the
returned metrics satisfy total_after_discount = total_before_discount -
total_discount_amount exactly (the model computes in exact rational
arithmetic, mirroring Python's decimal module). -/
theorem total_after_eq_before_sub_discount (orders : List Order)
    (ps : List ProductRow) (ds : List DiscountRow) (m : SalesMetrics)
    (w : List String)
    (h : calculate_sales_metrics orders ps ds = .ok (m, w)) :
    m.total_after_discount = m.total_before_discount - m.total_discount_amount := by
  cases hp : buildPriceTable ps with
  | error e => simp only [calculate_sales_metrics, hp] at h; exact Except.noConfusion h
  | ok pt =>
    cases hd : buildDiscountTable ds with
    | error e => simp only [calculate_sales_metrics, hp, hd] at h; exact Except.noConfusion h
    | ok dt =>
      cases hf : List.foldlM (stepOrder pt dt) (⟨⟨0, 0, 0, 0⟩, []⟩) orders with
      | error e => simp only [calculate_sales_metrics, hp, hd, hf] at h; exact Except.noConfusion h
      | ok r =>
        simp only [calculate_sales_metrics, hp, hd, hf, Except.ok.injEq,
          Prod.mk.injEq] at h
        obtain ⟨hm, hw⟩ := h
        subst hm
        exact foldl_stepOrder_inv pt dt orders _ r hf (by norm_num)

/-- Witness for C2 at a concrete input: the sample scenario's metrics. -/
theorem total_after_eq_witness :
    (⟨50, 42, 8, 1, 2, 16⟩ : SalesMetrics).total_after_discount =
      (⟨50, 42, 8, 1, 2, 16⟩ : SalesMetrics).total_before_discount -
      (⟨50, 42, 8, 1, 2, 16⟩ : SalesMetrics).total_discount_amount :=
  total_after_eq_before_sub_discount sampleOrders sampleProducts sampleDiscounts
    ⟨50, 42, 8, 1, 2, 16⟩ [] (by with_unfolding_all decide)

/-- Claim C6: on every successful run, average_discount_percentage equals
(total_discount_amount / total_before_discount) * 100 when
total_before_discount > 0 and orders_with_discount > 0, and equals 0 in
every other case. -/
theorem average_discount_formula (orders : List Order)
    (ps : List ProductRow) (ds : List DiscountRow) (m : SalesMetrics)
    (w : List String)
    (h : calculate_sales_metrics orders ps ds = .ok (m, w)) :
    (0 < m.total_before_discount ∧ 0 < m.orders_with_discount →
      m.average_discount_percentage =
        m.total_discount_amount / m.total_before_discount * 100) ∧
    (¬ (0 < m.total_before_discount ∧ 0 < m.orders_with_discount) →
      m.average_discount_percentage = 0) := by
  cases hp : buildPriceTable ps with
  | error e => simp only [calculate_sales_metrics, hp] at h; exact Except.noConfusion h
  | ok pt =>
    cases hd : buildDiscountTable ds with
    | error e => simp only [calculate_sales_metrics, hp, hd] at h; exact Except.noConfusion h
    | ok dt =>
      cases hf : List.foldlM (stepOrder pt dt) (⟨⟨0, 0, 0, 0⟩, []⟩) orders with
      | error e => simp only [calculate_sales_metrics, hp, hd, hf] at h; exact Except.noConfusion h
      | ok r =>
        simp only [calculate_sales_metrics, hp, hd, hf, Except.ok.injEq,
          Prod.mk.injEq] at h
        obtain ⟨hm, hw⟩ := h
        subst hm
        constructor
        · intro hcond
          simp only [finalize] at hcond ⊢
          rw [if_pos hcond]
        · intro hcond
          simp only [finalize] at hcond ⊢
          rw [if_neg hcond]

/-- Witness for C6 at a concrete input: the sample scenario (50 > 0 and one
discounted order, so the average is 8 / 50 * 100 = 16). -/
theorem average_discount_formula_witness :
    (0 < (⟨50, 42, 8, 1, 2, 16⟩ : SalesMetrics).total_before_discount ∧
      0 < (⟨50, 42, 8, 1, 2, 16⟩ : SalesMetrics).orders_with_discount →
      (⟨50, 42, 8, 1, 2, 16⟩ : SalesMetrics).average_discount_percentage =
        (⟨50, 42, 8, 1, 2, 16⟩ : SalesMetrics).total_discount_amount /
          (⟨50, 42, 8, 1, 2, 16⟩ : SalesMetrics).total_before_discount * 100) ∧
    (¬ (0 < (⟨50, 42, 8, 1, 2, 16⟩ : SalesMetrics).total_before_discount ∧
        0 < (⟨50, 42, 8, 1, 2, 16⟩ : SalesMetrics).orders_with_discount) →
      (⟨50, 42, 8, 1, 2, 16⟩ : SalesMetrics).average_discount_percentage = 0) :=
  average_discount_formula sampleOrders sampleProducts sampleDiscounts
    ⟨50, 42, 8, 1, 2, 16⟩ [] (by with_unfolding_all decide)

/-! Per-order discount behaviour (lines 107-120). -/

/-- A discount table holding a single negative value (the data model does not
constrain discount percentages to be nonnegative). -/
def negPctTable : Table := [("NEG", -(1/10))]

def onePriceTable : Table := [("PROD1", 10)]

def negPctOrder : Order := ⟨some "1", some [⟨some "PROD1", some (.num 1)⟩], some "NEG"⟩

/-- Counterexample to claim C4 as stated: for the order with total 10.00 and
discount string "NEG" whose (existing) code sums to -0.10, the code applies a
discount amount of 0, not total * sum = -1.00; so the applied percentage is
not the sum of the table values of the listed codes. -/
theorem stacking_negative_sum_counterexample :
    processOrder onePriceTable negPctTable negPctOrder = .ok ⟨10, 0, false, true⟩ ∧
    stackedPct negPctTable "NEG" = -(1/10) ∧
    ¬ ((0 : ℚ) = 10 * stackedPct negPctTable "NEG") := by
  refine ⟨?_, ?_, ?_⟩ <;> with_unfolding_all decide

/-- Claim C4 (amended): for every order carrying a non-empty discount string
whose comma-separated, whitespace-trimmed codes sum (over the codes present in
the table, unknown codes skipped, per `stackedPct`) to a nonnegative
percentage, the applied discount amount is exactly orderTotal * sum —
additive stacking.  (When the sum is negative the code applies zero discount
instead, per the counterexample.) -/
theorem stacking_additive_nonneg (pt dt : Table) (o : Order) (s : String)
    (t : ℚ) (hs : o.discount = some s) (hne : s ≠ "")
    (hnn : 0 ≤ stackedPct dt s) (ht : orderTotal pt o = .ok t) :
    ∃ r, processOrder pt dt o = .ok r ∧
      r.discountAmount = t * stackedPct dt s := by
  simp only [processOrder, ht, hs]
  rw [if_neg hne]
  by_cases hpos : 0 < stackedPct dt s
  · exact ⟨⟨t, t * stackedPct dt s, true, false⟩, by rw [if_pos hpos], rfl⟩
  · have h0 : stackedPct dt s = 0 := le_antisymm (not_lt.1 hpos) hnn
    exact ⟨⟨t, 0, false, true⟩, by rw [if_neg hpos], by rw [h0, mul_zero]⟩

/-- Witness for the amended C4 at a concrete input: the first sample order
(total 40.00, two 10% codes) gets discount amount 40 * 0.20 = 8.00, not a
compounded 7.60. -/
theorem stacking_additive_nonneg_witness :
    (∃ r, processOrder samplePriceTable sampleDiscountTable
        sampleOrder1 = .ok r ∧
      r.discountAmount = 40 * stackedPct sampleDiscountTable "SAVE10,WINTERMADNESS") ∧
    40 * stackedPct sampleDiscountTable "SAVE10,WINTERMADNESS" = 8 := by
  constructor
  · exact stacking_additive_nonneg samplePriceTable sampleDiscountTable
      sampleOrder1 "SAVE10,WINTERMADNESS" 40 rfl
      (by with_unfolding_all decide) (by with_unfolding_all decide)
      (by with_unfolding_all decide)
  · with_unfolding_all decide

/-- Claim C5: an order with a non-empty discount string whose resolved
percentage sums to 0 (e.g. every code unknown) gets discount amount 0, is not
counted in orders_with_discount, has the warning logged, and processing
succeeds (the computation continues). -/
theorem zero_resolved_pct_no_discount (pt dt : Table) (o : Order) (s : String)
    (t : ℚ) (hs : o.discount = some s) (hne : s ≠ "")
    (hz : stackedPct dt s = 0) (ht : orderTotal pt o = .ok t) :
    processOrder pt dt o = .ok ⟨t, 0, false, true⟩ := by
  simp only [processOrder, ht, hs]
  rw [if_neg hne, if_neg (by rw [hz]; exact lt_irrefl (0 : ℚ))]

/-- Witness for C5 at a concrete input: an order whose discount string names
only the unknown code "BOGUS". -/
theorem zero_resolved_pct_no_discount_witness :
    processOrder samplePriceTable sampleDiscountTable
      ⟨some "4", some [⟨some "PROD1", some (.num 1)⟩], some "BOGUS"⟩ =
      .ok ⟨10, 0, false, true⟩ :=
  zero_resolved_pct_no_discount samplePriceTable sampleDiscountTable
    ⟨some "4", some [⟨some "PROD1", some (.num 1)⟩], some "BOGUS"⟩ "BOGUS" 10
    rfl (by with_unfolding_all decide) (by with_unfolding_all decide)
    (by with_unfolding_all decide)

/-! Dict-building semantics: duplicate keys, last occurrence wins. -/

theorem except_bind_ok {ε α β : Type} (a : α) (f : α → Except ε β) :
    (Except.ok a : Except ε α) >>= f = f a := rfl

theorem except_bind_error {ε α β : Type} (e : ε) (f : α → Except ε β) :
    (Except.error e : Except ε α) >>= f = Except.error e := rfl

theorem except_pure {ε α : Type} (a : α) :
    (pure a : Except ε α) = Except.ok a := rfl

theorem tableGet_cons_of_some (x : String × ℚ) (t : Table) (k : String)
    (q : ℚ) (h : tableGet t k = some q) : tableGet (x :: t) k = some q := by
  unfold tableGet at h ⊢
  rw [List.reverse_cons, List.find?_append]
  cases hf : List.find? (fun e => e.1 = k) t.reverse with
  | none => rw [hf] at h; exact Option.noConfusion h
  | some e => rw [hf] at h; rw [Option.or_some]; exact h

/-- Every entry of the built price table comes from some input row: same key,
and the converted value of that row's price. -/
theorem buildPriceTable_mem (rows : List ProductRow) (t : Table)
    (h : buildPriceTable rows = .ok t) :
    ∀ e ∈ t, ∃ r, r ∈ rows ∧ r.sku = e.1 ∧ to_decimal r.price "price" = .ok e.2 := by
  induction rows generalizing t with
  | nil =>
    simp only [buildPriceTable, Except.ok.injEq] at h
    subst h
    intro e he
    exact absurd he (List.not_mem_nil e)
  | cons x xs ih =>
    cases hc : to_decimal x.price "price" with
    | error e0 =>
      simp only [buildPriceTable, hc] at h
      exact Except.noConfusion h
    | ok p =>
      cases hb : buildPriceTable xs with
      | error e0 =>
        simp only [buildPriceTable, hc, hb] at h
        exact Except.noConfusion h
      | ok t' =>
        simp only [buildPriceTable, hc, hb, Except.ok.injEq] at h
        subst h
        intro e he
        rcases List.mem_cons.1 he with he1 | he2
        · subst he1
          exact ⟨x, List.mem_cons_self x xs, rfl, hc⟩
        · obtain ⟨r, hr, h1, h2⟩ := ih t' hb e he2
          exact ⟨r, List.mem_cons_of_mem x hr, h1, h2⟩

/-- Every entry of the built discount table comes from some input row. -/
theorem buildDiscountTable_mem (rows : List DiscountRow) (t : Table)
    (h : buildDiscountTable rows = .ok t) :
    ∀ e ∈ t, ∃ r, r ∈ rows ∧ r.key = e.1 ∧ to_decimal r.value "discount" = .ok e.2 := by
  induction rows generalizing t with
  | nil =>
    simp only [buildDiscountTable, Except.ok.injEq] at h
    subst h
    intro e he
    exact absurd he (List.not_mem_nil e)
  | cons x xs ih =>
    cases hc : to_decimal x.value "discount" with
    | error e0 =>
      simp only [buildDiscountTable, hc] at h
      exact Except.noConfusion h
    | ok p =>
      cases hb : buildDiscountTable xs with
      | error e0 =>
        simp only [buildDiscountTable, hc, hb] at h
        exact Except.noConfusion h
      | ok t' =>
        simp only [buildDiscountTable, hc, hb, Except.ok.injEq] at h
        subst h
        intro e he
        rcases List.mem_cons.1 he with he1 | he2
        · subst he1
          exact ⟨x, List.mem_cons_self x xs, rfl, hc⟩
        · obtain ⟨r, hr, h1, h2⟩ := ih t' hb e he2
          exact ⟨r, List.mem_cons_of_mem x hr, h1, h2⟩

/-- Claim C8: for every key k and every row collection, if r is the last row
with that key in input order (the first hit in the reversed rows) -- wherever
it sits, with duplicates before or other keys after -- then the built product
(resp. discount) table maps k to the converted value of r: later entries
overwrite earlier ones. -/
theorem duplicate_keys_last_wins :
    (∀ (rows : List ProductRow) (t : Table) (k : String) (r : ProductRow),
      buildPriceTable rows = .ok t →
      List.find? (fun r => r.sku = k) rows.reverse = some r →
      ∃ q, to_decimal r.price "price" = .ok q ∧ tableGet t k = some q) ∧
    (∀ (rows : List DiscountRow) (t : Table) (k : String) (r : DiscountRow),
      buildDiscountTable rows = .ok t →
      List.find? (fun r => r.key = k) rows.reverse = some r →
      ∃ q, to_decimal r.value "discount" = .ok q ∧ tableGet t k = some q) := by
  constructor
  · intro rows
    induction rows with
    | nil =>
      intro t k r h hfind
      simp at hfind
    | cons x xs ih =>
      intro t k r h hfind
      cases hc : to_decimal x.price "price" with
      | error e0 =>
        simp only [buildPriceTable, hc] at h
        exact Except.noConfusion h
      | ok p =>
        cases hb : buildPriceTable xs with
        | error e0 =>
          simp only [buildPriceTable, hc, hb] at h
          exact Except.noConfusion h
        | ok t' =>
          simp only [buildPriceTable, hc, hb, Except.ok.injEq] at h
          subst h
          rw [List.reverse_cons, List.find?_append] at hfind
          cases hxs : List.find? (fun r => r.sku = k) xs.reverse with
          | some r0 =>
            rw [hxs, Option.or_some] at hfind
            cases hfind
            obtain ⟨q, hq, hget⟩ := ih t' k r hb hxs
            exact ⟨q, hq, tableGet_cons_of_some _ _ _ _ hget⟩
          | none =>
            rw [hxs, Option.none_or, List.find?_singleton] at hfind
            by_cases hx : x.sku = k
            · rw [if_pos (by simp [hx])] at hfind
              cases hfind
              refine ⟨p, hc, ?_⟩
              unfold tableGet
              rw [List.reverse_cons, List.find?_append]
              have hnone : List.find? (fun e => e.1 = k) t'.reverse = none := by
                rw [List.find?_eq_none]
                intro e he
                obtain ⟨r', hr', h1, h2⟩ :=
                  buildPriceTable_mem xs t' hb e (List.mem_reverse.1 he)
                have hne := List.find?_eq_none.1 hxs r' (List.mem_reverse.2 hr')
                simp only [decide_eq_true_eq] at hne ⊢
                exact fun hek => hne (by rw [h1]; exact hek)
              rw [hnone, Option.none_or, List.find?_singleton,
                if_pos (by simp [hx])]
              rfl
            · rw [if_neg (by simp [hx])] at hfind
              exact Option.noConfusion hfind
  · intro rows
    induction rows with
    | nil =>
      intro t k r h hfind
      simp at hfind
    | cons x xs ih =>
      intro t k r h hfind
      cases hc : to_decimal x.value "discount" with
      | error e0 =>
        simp only [buildDiscountTable, hc] at h
        exact Except.noConfusion h
      | ok p =>
        cases hb : buildDiscountTable xs with
        | error e0 =>
          simp only [buildDiscountTable, hc, hb] at h
          exact Except.noConfusion h
        | ok t' =>
          simp only [buildDiscountTable, hc, hb, Except.ok.injEq] at h
          subst h
          rw [List.reverse_cons, List.find?_append] at hfind
          cases hxs : List.find? (fun r => r.key = k) xs.reverse with
          | some r0 =>
            rw [hxs, Option.or_some] at hfind
            cases hfind
            obtain ⟨q, hq, hget⟩ := ih t' k r hb hxs
            exact ⟨q, hq, tableGet_cons_of_some _ _ _ _ hget⟩
          | none =>
            rw [hxs, Option.none_or, List.find?_singleton] at hfind
            by_cases hx : x.key = k
            · rw [if_pos (by simp [hx])] at hfind
              cases hfind
              refine ⟨p, hc, ?_⟩
              unfold tableGet
              rw [List.reverse_cons, List.find?_append]
              have hnone : List.find? (fun e => e.1 = k) t'.reverse = none := by
                rw [List.find?_eq_none]
                intro e he
                obtain ⟨r', hr', h1, h2⟩ :=
                  buildDiscountTable_mem xs t' hb e (List.mem_reverse.1 he)
                have hne := List.find?_eq_none.1 hxs r' (List.mem_reverse.2 hr')
                simp only [decide_eq_true_eq] at hne ⊢
                exact fun hek => hne (by rw [h1]; exact hek)
              rw [hnone, Option.none_or, List.find?_singleton,
                if_pos (by simp [hx])]
              rfl
            · rw [if_neg (by simp [hx])] at hfind
              exact Option.noConfusion hfind

/-- Witness for C8 at concrete inputs where the duplicated key is not the
final row: product rows A=1.00, A=2.00, B=3.00 give A -> 2.00, and discount
rows C=0.10, C=0.30, D=0.50 give C -> 0.30. -/
theorem duplicate_keys_last_wins_witness :
    (∃ q, to_decimal (Raw.num 2) "price" = .ok q ∧
      tableGet [("A", 1), ("A", 2), ("B", 3)] "A" = some q) ∧
    (∃ q, to_decimal (Raw.num (3/10)) "discount" = .ok q ∧
      tableGet [("C", 1/10), ("C", 3/10), ("D", 1/2)] "C" = some q) :=
  ⟨duplicate_keys_last_wins.1
      [⟨"A", .num 1⟩, ⟨"A", .num 2⟩, ⟨"B", .num 3⟩]
      [("A", 1), ("A", 2), ("B", 3)] "A" ⟨"A", .num 2⟩
      (by with_unfolding_all decide) (by with_unfolding_all decide),
   duplicate_keys_last_wins.2
      [⟨"C", .num (1/10)⟩, ⟨"C", .num (3/10)⟩, ⟨"D", .num (1/2)⟩]
      [("C", 1/10), ("C", 3/10), ("D", 1/2)] "C" ⟨"C", .num (3/10)⟩
      (by with_unfolding_all decide) (by with_unfolding_all decide)⟩

/-! Whole-batch abort on a bad order (lines 100-129): a missing required key
or an unknown sku raises, identified by the order id (or "unknown") and the
missing field/key, and no metrics are produced. -/

/-- The first KeyError an item raises, in Python's evaluation order:
a missing `sku` key raises KeyError "sku", a sku absent from the price table
raises KeyError of that sku, a missing `quantity` key raises KeyError
"quantity"; otherwise no KeyError (`none`) — a malformed quantity value is an
`invalidValue` failure, not a KeyError. -/
def itemDefectKey (pt : Table) (it : Item) : Option String :=
  match it.sku with
  | none => some "sku"
  | some s =>
    match tableGet pt s with
    | none => some s
    | some _ =>
      match it.quantity with
      | none => some "quantity"
      | some _ => none

/-- The order raises KeyError `k` as its first failure: either its `items`
key is missing (`k` = "items"), or every item before some defective item
evaluates fine and that item's first KeyError is `k`. -/
def orderDefect (pt : Table) (o : Order) (k : String) : Prop :=
  (o.items = none ∧ k = "items") ∨
  (∃ good bad rest, o.items = some (good ++ bad :: rest) ∧
    (∀ it ∈ good, ∃ v, itemVal pt (orderIdOf o) it = .ok v) ∧
    itemDefectKey pt bad = some k)

theorem itemVal_defect (pt : Table) (oid : String) (it : Item) (k : String)
    (h : itemDefectKey pt it = some k) :
    itemVal pt oid it = .error (.invalidOrder oid k) := by
  cases hs : it.sku with
  | none =>
    simp only [itemDefectKey, hs, Option.some.injEq] at h
    subst h
    simp only [itemVal, hs]
  | some s =>
    cases hg : tableGet pt s with
    | none =>
      simp only [itemDefectKey, hs, hg, Option.some.injEq] at h
      subst h
      simp only [itemVal, hs, hg]
    | some p =>
      cases hq : it.quantity with
      | none =>
        simp only [itemDefectKey, hs, hg, hq, Option.some.injEq] at h
        subst h
        simp only [itemVal, hs, hg, hq]
      | some qr =>
        simp only [itemDefectKey, hs, hg, hq] at h
        exact Option.noConfusion h

theorem foldl_items_ok (pt : Table) (oid : String) (its : List Item)
    (h : ∀ it ∈ its, ∃ v, itemVal pt oid it = .ok v) (acc : ℚ) :
    ∃ v, List.foldlM
      (fun acc it => (itemVal pt oid it).map (fun v => acc + v)) acc its =
      .ok v := by
  induction its generalizing acc with
  | nil => exact ⟨acc, rfl⟩
  | cons x xs ih =>
    obtain ⟨v, hv⟩ := h x (by simp)
    have hstep : (itemVal pt oid x).map (fun w => acc + w) = .ok (acc + v) := by
      rw [hv]
      rfl
    rw [List.foldlM_cons, hstep, except_bind_ok]
    exact ih (fun it hit => h it (by simp [hit])) (acc + v)

theorem orderTotal_defect (pt : Table) (o : Order) (k : String)
    (hdef : orderDefect pt o k) :
    orderTotal pt o = .error (.invalidOrder (orderIdOf o) k) := by
  rcases hdef with ⟨hi, hk⟩ | ⟨good, bad, rest, hi, hgood, hbad⟩
  · subst hk
    simp only [orderTotal, hi]
  · simp only [orderTotal, hi]
    rw [List.foldlM_append]
    obtain ⟨v, hv⟩ := foldl_items_ok pt (orderIdOf o) good hgood 0
    rw [hv, except_bind_ok, List.foldlM_cons]
    have hbadstep :
        (itemVal pt (orderIdOf o) bad).map (fun w => v + w) =
          .error (.invalidOrder (orderIdOf o) k) := by
      rw [itemVal_defect pt (orderIdOf o) bad k hbad]
      rfl
    rw [hbadstep, except_bind_error]

theorem processOrder_defect (pt dt : Table) (o : Order) (k : String)
    (hdef : orderDefect pt o k) :
    processOrder pt dt o = .error (.invalidOrder (orderIdOf o) k) := by
  simp only [processOrder, orderTotal_defect pt o k hdef]

theorem stepOrder_defect (pt dt : Table) (acc : Totals × List String)
    (o : Order) (k : String) (hdef : orderDefect pt o k) :
    stepOrder pt dt acc o = .error (.invalidOrder (orderIdOf o) k) := by
  simp only [stepOrder, processOrder_defect pt dt o k hdef]

theorem foldl_orders_ok (pt dt : Table) (pre : List Order)
    (h : ∀ o ∈ pre, ∃ r, processOrder pt dt o = .ok r)
    (acc : Totals × List String) :
    ∃ acc', List.foldlM (stepOrder pt dt) acc pre = .ok acc' := by
  induction pre generalizing acc with
  | nil => exact ⟨acc, rfl⟩
  | cons o os ih =>
    obtain ⟨r, hr⟩ := h o (by simp)
    rw [List.foldlM_cons, stepOrder_ok_fields pt dt acc o r hr, except_bind_ok]
    exact ih (fun o' ho' => h o' (by simp [ho'])) _

/-- Claim C3: if the input contains an order whose first failure is a missing
required key or a sku absent from the price table (and the orders before it
process fine, the tables themselves building fine), then
`calculate_sales_metrics` aborts the whole aggregation — whatever valid
orders precede or follow — with the error identifying the order (by orderId
if present, else "unknown") and the missing field/key; no metrics are
returned. -/
theorem invalid_order_aborts (pre post : List Order) (o : Order)
    (ps : List ProductRow) (ds : List DiscountRow) (pt dt : Table) (k : String)
    (hpt : buildPriceTable ps = .ok pt) (hdt : buildDiscountTable ds = .ok dt)
    (hpre : ∀ o' ∈ pre, ∃ r, processOrder pt dt o' = .ok r)
    (hdef : orderDefect pt o k) :
    calculate_sales_metrics (pre ++ o :: post) ps ds =
      .error (.invalidOrder (orderIdOf o) k) := by
  obtain ⟨acc', ha⟩ := foldl_orders_ok pt dt pre hpre (⟨⟨0, 0, 0, 0⟩, []⟩)
  simp only [calculate_sales_metrics, hpt, hdt, List.foldlM_append, ha,
    except_bind_ok, List.foldlM_cons, stepOrder_defect pt dt acc' o k hdef,
    except_bind_error]

/-- Witness for C3 at a concrete input: the single order "3" referencing the
unknown sku "NONEXISTENT" (as in the repository's tests) aborts the run with
the error identifying order "3" and key "NONEXISTENT". -/
theorem invalid_order_aborts_witness :
    calculate_sales_metrics
      [⟨some "3", some [⟨some "NONEXISTENT", some (.num 1)⟩], none⟩]
      sampleProducts sampleDiscounts =
      .error (.invalidOrder "3" "NONEXISTENT") :=
  invalid_order_aborts [] []
    ⟨some "3", some [⟨some "NONEXISTENT", some (.num 1)⟩], none⟩
    sampleProducts sampleDiscounts samplePriceTable sampleDiscountTable
    "NONEXISTENT"
    (by with_unfolding_all decide) (by with_unfolding_all decide)
    (fun o' ho' => absurd ho' (List.not_mem_nil o'))
    (Or.inr ⟨[], ⟨some "NONEXISTENT", some (.num 1)⟩, [], rfl,
      fun it hit => absurd hit (List.not_mem_nil it),
      by with_unfolding_all decide⟩)

end SalesMetricsModel
